import Mathlib

/-!
Verification of the ingestion-and-normalization pipeline of this repository
(`data/input_data/abc.py` and its near-duplicate `data/input_data/import gzip.py`).

The embedding is line-based and row-oriented:

* `Value` models a Python/JSON value as it appears in a cell after `json.loads`
  (and after conversions, so it also carries `datetime` results); numbers are
  modelled as exact rationals (`Rat`), so Python's true division `/ 1000`
  becomes exact rational division.  `Value.datetime q` models the Python object
  `datetime.datetime.fromtimestamp(q)`, identified by its epoch-seconds
  argument `q` (the wall-clock rendering depends on the host timezone and is
  outside the model; `fromtimestamp` is injective on its argument, so this
  identification is faithful).
* A `Record` is a parsed JSON object (association list, first key wins, as for
  a Python dict with unique keys); a `Table` is the row list of a DataFrame.
* The loader is modelled on the decompressed text: a file is its list of lines
  (without terminators; a trailing `"\n"` on a line changes neither
  `str.strip()`, `str.startswith`, nor `json.loads`, so dropping terminators is
  faithful).  JSON parsing itself (`json.loads` / the pandas line parser) is an
  external library, not code of this repository, so the loader is parameterized
  by a parse oracle `parse : String → Option Value` (`none` models a raised
  `JSONDecodeError` / the `ValueError` that makes `pd.read_json` fail);
  theorems carry the parser-like facts they need as hypotheses, and witnesses
  instantiate the oracle with concrete finite functions.
* Python's `str.split`, `str.replace`, `str.startswith` and the truthiness of
  `str.strip()` are given their own structural (fuel-indexed, hence
  kernel-computable) definitions below, so that all loader computations
  evaluate by `rfl`/`decide`.
* Raised exceptions are modelled by `Except PyError`: `convert_date` is the
  one conversion that can raise (Python `value['$date'] / 1000` is a
  `TypeError` when the payload is not a number), and `apply_conversions`
  propagates it.  File-open and gzip errors happen before the content exists
  and are outside this content-level model.
-/

/-- A JSON-typed cell value, extended with the `datetime` objects produced by
`convert_date`.  Numbers are exact rationals. -/
inductive Value where
  | null
  | bool (b : Bool)
  | num (q : Rat)
  | str (s : String)
  | arr (elems : List Value)
  | obj (fields : List (String × Value))
  | datetime (secondsSinceEpoch : Rat)

/-- A raised Python exception (only `TypeError`, from `value['$date'] / 1000`
on a non-numeric payload, is reachable in the modelled code). -/
inductive PyError where
  | typeError

/-- A parsed JSON object: the fields of a Python dict in insertion order. -/
abbrev Record := List (String × Value)

/-- The rows of a DataFrame whose cells are JSON-typed values. -/
abbrev Table := List Record

/-- Python dict key lookup `d[k]` / `k in d` on a `Record` (unique keys in a
parsed object, so first match is the match). -/
def getField : Record → String → Option Value
  | [], _ => none
  | (k', v) :: rest, k => if k' = k then some v else getField rest k

/-- `isinstance(value, dict)`, returning the fields when it holds. -/
def dictFields? : Value → Option Record
  | .obj fs => some fs
  | _ => none

/-- `convert_oid` (abc.py lines 36–43): if `value` is a dict containing key
`"$oid"`, return `value['$oid']`; otherwise return `value` unchanged. -/
def convert_oid (value : Value) : Value :=
  match dictFields? value with
  | some fs =>
    match getField fs "$oid" with
    | some x => x
    | none => value
  | none => value

/-- `convert_date` (abc.py lines 45–52): if `value` is a dict containing key
`"$date"`, return `datetime.datetime.fromtimestamp(value['$date'] / 1000)`;
otherwise return `value` unchanged.  Python `/` succeeds on numbers (`bool`
counts as a number: `True == 1`, `False == 0`) and raises `TypeError` on any
other payload; `fromtimestamp` is modelled as total on rationals. -/
def convert_date (value : Value) : Except PyError Value :=
  match dictFields? value with
  | some fs =>
    match getField fs "$date" with
    | some (.num n) => .ok (.datetime (n / 1000))
    | some (.bool b) => .ok (.datetime ((if b then (1 : Rat) else 0) / 1000))
    | some _ => .error .typeError
    | none => .ok value
  | none => .ok value

/-- `convert_cpg` (abc.py lines 54–68): if `value` is a dict containing both
`"$id"` and `"$ref"`, build `{'cpg_id': ..., 'cpg_ref': ...}`, where `cpg_id`
is the nested `"$oid"` string when `value['$id']` is a dict containing
`"$oid"` and `value['$id']` itself otherwise; any other value is returned
unchanged. -/
def convert_cpg (value : Value) : Value :=
  match dictFields? value with
  | some fs =>
    match getField fs "$id", getField fs "$ref" with
    | some idv, some refv =>
      let cpg_id :=
        match dictFields? idv with
        | some fs2 =>
          match getField fs2 "$oid" with
          | some o => o
          | none => idv
        | none => idv
      .obj [("cpg_id", cpg_id), ("cpg_ref", refv)]
    | _, _ => value
  | none => value

/-- `col in df.columns`: the column set of a DataFrame built from a list of
dicts is the union of the keys, so a column is present iff some row has it. -/
def colPresent (c : String) (t : Table) : Bool :=
  t.any (fun r => (getField r c).isSome)

/-- One row of `df[col] = df[col].apply(f)`: rewrite the value under key `c`
(a row lacking `c` holds `NaN` there, which every conversion passes through,
so such a row is unchanged). -/
def convertColumn (f : Value → Value) (c : String) (r : Record) : Record :=
  r.map (fun kv => if kv.1 = c then (kv.1, f kv.2) else kv)

/-- `if col in df.columns: df[col] = df[col].apply(f)` for a non-raising `f`. -/
def applyCol (f : Value → Value) (c : String) (t : Table) : Table :=
  if colPresent c t then t.map (convertColumn f c) else t

/-- One row of `df[col].apply(f)` for a conversion that can raise: the first
raised exception aborts the whole column rewrite. -/
def convertColumnE (f : Value → Except PyError Value) (c : String) :
    Record → Except PyError Record
  | [] => .ok []
  | kv :: rest =>
    if kv.1 = c then
      match f kv.2 with
      | .ok v =>
        match convertColumnE f c rest with
        | .ok r => .ok ((kv.1, v) :: r)
        | .error e => .error e
      | .error e => .error e
    else
      match convertColumnE f c rest with
      | .ok r => .ok (kv :: r)
      | .error e => .error e

/-- Row-by-row application of a raising column rewrite, first error wins. -/
def tableMapE (g : Record → Except PyError Record) :
    Table → Except PyError Table
  | [] => .ok []
  | r :: rest =>
    match g r with
    | .ok r' =>
      match tableMapE g rest with
      | .ok t' => .ok (r' :: t')
      | .error e => .error e
    | .error e => .error e

/-- `if col in df.columns: df[col] = df[col].apply(f)` for a raising `f`. -/
def applyColE (f : Value → Except PyError Value) (c : String) (t : Table) :
    Except PyError Table :=
  if colPresent c t then tableMapE (convertColumnE f c) t else .ok t

/-- The ObjectId columns hard-coded in `apply_conversions`. -/
def oid_columns : List String := ["_id", "userId", "brand_id"]

/-- The date columns hard-coded in `apply_conversions`. -/
def date_columns : List String :=
  ["createdDate", "lastLogin", "purchaseDate", "dateScanned", "finishedDate",
   "modifyDate", "pointsAwardedDate"]

/-- The `for col in oid_columns` loop of `apply_conversions`. -/
def applyOidCols : List String → Table → Table
  | [], t => t
  | c :: cs, t => applyOidCols cs (applyCol convert_oid c t)

/-- The `for col in date_columns` loop of `apply_conversions`; a raised
`TypeError` propagates out of the loop. -/
def applyDateCols : List String → Table → Except PyError Table
  | [], t => .ok t
  | c :: cs, t =>
    match applyColE convert_date c t with
    | .ok t' => applyDateCols cs t'
    | .error e => .error e

/-- `apply_conversions` (abc.py lines 71–93): ObjectId columns, then date
columns, then the `cpg` column when present. -/
def apply_conversions (t : Table) : Except PyError Table :=
  match applyDateCols date_columns (applyOidCols oid_columns t) with
  | .ok t2 => .ok (applyCol convert_cpg "cpg" t2)
  | .error e => .error e

/-- `df.drop(col, axis=1)` on one row: remove the key `c`. -/
def dropKey (c : String) : Record → Record
  | [] => []
  | kv :: rest => if kv.1 = c then dropKey c rest else kv :: dropKey c rest

/-- The nested-column extraction of abc.py lines 108–118
(`sub = df[col]; sub_df = pd.DataFrame(sub); df = df.drop(col, axis=1)`):
the first component is the extracted column (one entry per source row, `none`
for a row lacking the column, pandas `NaN`), the second the parent table
without that column. -/
def extractColumn (c : String) (t : Table) : List (Option Value) × Table :=
  (t.map (fun r => getField r c), t.map (dropKey c))

/-- If `sep` is a leading segment of `s`, the rest of `s` after it. -/
def dropLead? (sep : List Char) : List Char → Option (List Char)
  | s =>
    match sep, s with
    | [], s => some s
    | _ :: _, [] => none
    | a :: as, b :: bs => if a = b then dropLead? as bs else none

/-- Python `s.split(sep)` on character lists, for a non-empty `sep`, indexed by
a fuel bound (`fuel ≥ s.length` makes the fuel-exhausted branch unreachable);
fuel keeps the recursion structural, hence kernel-computable. -/
def splitCharsF (sep : List Char) : Nat → List Char → List (List Char)
  | _, [] => [[]]
  | 0, s => [s]
  | fuel + 1, c :: cs =>
    match dropLead? sep (c :: cs) with
    | some rest => [] :: splitCharsF sep fuel rest
    | none =>
      match splitCharsF sep fuel cs with
      | [] => [[c]]
      | g :: gs => (c :: g) :: gs

/-- Python `s.replace(pat, rep)` on character lists (non-empty `pat`): every
occurrence is replaced, scanning left to right; same fuel discipline. -/
def replaceCharsF (pat rep : List Char) : Nat → List Char → List Char
  | _, [] => []
  | 0, s => s
  | fuel + 1, c :: cs =>
    match dropLead? pat (c :: cs) with
    | some rest => rep ++ replaceCharsF pat rep fuel rest
    | none => c :: replaceCharsF pat rep fuel cs

/-- Python `s.split(sep)` (non-empty separator). -/
def pySplit (sep s : String) : List String :=
  (splitCharsF sep.data s.data.length s.data).map String.mk

/-- Python `s.replace(pat, rep)` (non-empty pattern). -/
def pyReplace (s pat rep : String) : String :=
  String.mk (replaceCharsF pat.data rep.data s.data.length s.data)

/-- Python `line.startswith(pre)`. -/
def pyStartsWith (pre line : String) : Bool :=
  (dropLead? pre.data line.data).isSome

/-- Python truthiness of `line.strip()`: the line has a non-whitespace
character. -/
def lineNonBlank (line : String) : Bool :=
  line.data.any (fun c => !c.isWhitespace)

/-- The fallback's base-name token (abc.py line 24):
`file_path.split("/")[-1].replace(".gz", "")` — last path segment with every
occurrence of `".gz"` removed. -/
def base_name (file_path : String) : String :=
  pyReplace ((pySplit "/" file_path).getLast!) ".gz" ""

/-- The fallback keeps a line iff
`line.strip() and not line.startswith(base_name)` (abc.py line 28). -/
def keepLine (bn line : String) : Bool :=
  lineNonBlank line && !(pyStartsWith bn line)

/-- The primary strategy `pd.read_json(file_path, compression='gzip',
lines=True)`: parse every line of the decompressed content as one JSON value;
any line the parser rejects makes the whole call raise `ValueError`
(modelled as `none`). -/
def parse_all (parse : String → Option Value) : List String → Option (List Value)
  | [] => some []
  | l :: ls =>
    match parse l with
    | some v =>
      match parse_all parse ls with
      | some vs => some (v :: vs)
      | none => none
    | none => none

/-- The fallback loop of `load_gzipped_json` (abc.py lines 25–32): per line,
skip it unless it is non-blank and does not start with the base-name token;
otherwise `json.loads` it, appending on success and discarding the line on
`JSONDecodeError`. -/
def fallbackRows (parse : String → Option Value) (bn : String) :
    List String → List Value
  | [] => []
  | l :: ls =>
    if keepLine bn l then
      match parse l with
      | some v => v :: fallbackRows parse bn ls
      | none => fallbackRows parse bn ls
    else fallbackRows parse bn ls

/-- `load_gzipped_json` (abc.py lines 7–33) on the decompressed content of
`file_path`, given as its list of lines: try the primary newline-delimited
parse, and on its `ValueError` fall back to the per-line loop.  The rows are
the parsed per-line values (`pd.DataFrame` of a list of dicts keeps them in
order, one row each). -/
def load_gzipped_json (parse : String → Option Value) (file_path : String)
    (lines : List String) : List Value :=
  match parse_all parse lines with
  | some t => t
  | none => fallbackRows parse (base_name file_path) lines

/-- A concrete parse oracle for witnesses and counterexamples: a restriction
of a real JSON parser that recognizes the two objects used in them. -/
def demoParse (s : String) : Option Value :=
  if s = "\x7b\x7d" then some (.obj [])
  else if s = "\x7b\x22a\x22:1\x7d" then some (.obj [("a", .num 1)])
  else none

/-- Days from 1970-01-01 to the civil date `y-m-d` (proleptic Gregorian).
Used only to give meaning to a calendar-labelled UTC instant in the spec. -/
def daysFromCivil (y m d : Int) : Int :=
  let y' := if m ≤ 2 then y - 1 else y
  let era := (if 0 ≤ y' then y' else y' - 399) / 400
  let yoe := y' - era * 400
  let mp := if 2 < m then m - 3 else m + 9
  let doy := (153 * mp + 2) / 5 + d - 1
  let doe := yoe * 365 + yoe / 4 - yoe / 100 + doy
  era * 146097 + doe - 719468

/-- Seconds since the epoch of the UTC instant `y-m-d hh:mm:ss`. -/
def utcEpochSeconds (y m d hh mm ss : Int) : Int :=
  daysFromCivil y m d * 86400 + hh * 3600 + mm * 60 + ss

/-! ### Loader lemmas -/

theorem dropLead?_self (l : List Char) : dropLead? l l = some [] := by
  induction l with
  | nil => rfl
  | cons c cs ih => simp [dropLead?, ih]

theorem pyStartsWith_self (s : String) : pyStartsWith s s = true := by
  simp [pyStartsWith, dropLead?_self]

theorem keepLine_self_false (bn : String) : keepLine bn bn = false := by
  simp [keepLine, pyStartsWith_self]

theorem parse_all_of_fail (parse : String → Option Value) (ls : List String)
    (h : ∃ l ∈ ls, parse l = none) : parse_all parse ls = none := by
  induction ls with
  | nil => simp at h
  | cons l ls ih =>
    rcases h with ⟨l', hl', hfail⟩
    rcases List.mem_cons.mp hl' with hl' | hl'
    · subst hl'
      simp [parse_all, hfail]
    · cases hp : parse l with
      | none => simp [parse_all, hp]
      | some v => simp [parse_all, hp, ih ⟨l', hl', hfail⟩]

theorem parse_all_of_ok (parse : String → Option Value) (ls : List String)
    (h : ∀ l ∈ ls, (parse l).isSome) :
    parse_all parse ls = some (ls.filterMap parse) := by
  induction ls with
  | nil => rfl
  | cons l ls ih =>
    have hl : (parse l).isSome := h l (by simp)
    cases hp : parse l with
    | none => rw [hp] at hl; simp at hl
    | some v =>
      simp [parse_all, hp, List.filterMap_cons, ih (fun x hx => h x (by simp [hx]))]

theorem fallbackRows_eq_filterMap (parse : String → Option Value) (bn : String)
    (ls : List String) :
    fallbackRows parse bn ls = (ls.filter (keepLine bn)).filterMap parse := by
  induction ls with
  | nil => rfl
  | cons l ls ih =>
    by_cases hk : keepLine bn l
    · cases hp : parse l with
      | none => simp [fallbackRows, hk, hp, List.filter_cons, List.filterMap_cons, ih]
      | some v => simp [fallbackRows, hk, hp, List.filter_cons, List.filterMap_cons, ih]
    · simp [fallbackRows, hk, List.filter_cons, ih]

theorem fallbackRows_skip (parse : String → Option Value) (bn l : String)
    (ls : List String) (h : keepLine bn l = false) :
    fallbackRows parse bn (l :: ls) = fallbackRows parse bn ls := by
  simp [fallbackRows, h]

/-- C8: on an input whose parsed content is a single JSON object — in the
line-based loader, a one-line file holding one object — `load_gzipped_json`
returns a one-row Table holding exactly that object (the primary strategy
yields one row per line; `pd.DataFrame` of one record is one row). -/
theorem load_single_object_one_row (parse : String → Option Value)
    (path l : String) (fs : Record) (h : parse l = some (.obj fs)) :
    load_gzipped_json parse path [l] = [.obj fs] := by
  simp [load_gzipped_json, parse_all, h]

/-- Witness for `load_single_object_one_row` at a concrete one-object file. -/
theorem load_single_object_one_row_witness :
    load_gzipped_json demoParse "data/input_data/users.json.gz" ["\x7b\x7d"] =
      [.obj []] :=
  load_single_object_one_row demoParse "data/input_data/users.json.gz"
    "\x7b\x7d" [] rfl

/-- C5 counterexample: with file path `"{.gz"` the base-name token is `"{"`,
so the fallback discards every JSON object line (each starts with `{`).  The
input `["{", "{}"]` — a header line identical to the base name followed by a
valid JSON object line, loaded via the fallback path since the header does not
parse — yields the empty Table, while the same input without the header loads
to a one-row Table; the claimed equality fails. -/
theorem load_header_line_cx :
    base_name "\x7b.gz" = "\x7b" ∧
    demoParse "\x7b" = none ∧
    (demoParse "\x7b\x7d").isSome = true ∧
    load_gzipped_json demoParse "\x7b.gz" ["\x7b", "\x7b\x7d"] = [] ∧
    load_gzipped_json demoParse "\x7b.gz" ["\x7b\x7d"] = [.obj []] ∧
    (load_gzipped_json demoParse "\x7b.gz" ["\x7b", "\x7b\x7d"]).length = 0 ∧
    (load_gzipped_json demoParse "\x7b.gz" ["\x7b\x7d"]).length = 1 :=
  ⟨by decide, rfl, rfl, rfl, rfl, rfl, rfl⟩

/-- C5 (amended): a header line identical to the base name is always skipped
by the fallback, so — provided no remaining line is blank or begins with the
base-name token — load of header-plus-valid-JSON-lines equals load of the
same input without the header (which the primary strategy parses). -/
theorem load_header_line_equiv (parse : String → Option Value)
    (path hd : String) (rest : List String) (h1 : hd = base_name path)
    (h2 : parse hd = none) (h3 : ∀ l ∈ rest, (parse l).isSome)
    (h4 : ∀ l ∈ rest, keepLine (base_name path) l = true) :
    load_gzipped_json parse path (hd :: rest) =
      load_gzipped_json parse path rest := by
  have hfail : parse_all parse (hd :: rest) = none :=
    parse_all_of_fail parse _ ⟨hd, by simp, h2⟩
  have hkeep : keepLine (base_name path) hd = false := by
    rw [h1]; exact keepLine_self_false _
  simp only [load_gzipped_json, hfail, parse_all_of_ok parse rest h3]
  rw [fallbackRows_skip parse _ _ _ hkeep, fallbackRows_eq_filterMap,
    List.filter_eq_self.mpr h4]

/-- Witness for `load_header_line_equiv` on a realistic header file. -/
theorem load_header_line_equiv_witness :
    load_gzipped_json demoParse "data/input_data/users.json.gz"
        ["users.json", "\x7b\x7d"] =
      load_gzipped_json demoParse "data/input_data/users.json.gz"
        ["\x7b\x7d"] :=
  load_header_line_equiv demoParse "data/input_data/users.json.gz"
    "users.json" ["\x7b\x7d"] (by decide) rfl (by decide) (by decide)

/-- C4 (amended): when some line fails to parse (so the primary strategy
raises `ValueError` and the fallback runs), `load_gzipped_json` returns —
without raising — exactly the successfully parsed values, in encounter order,
of the lines that are non-blank and do not begin with the base-name token;
in particular a 3-line input whose second line is invalid JSON and whose
first and third lines are kept yields a 2-row Table. -/
theorem load_malformed_lines_behavior :
    (∀ (parse : String → Option Value) (path : String) (lines : List String),
        (∃ l ∈ lines, parse l = none) →
        load_gzipped_json parse path lines =
          (lines.filter (keepLine (base_name path))).filterMap parse) ∧
    (∀ (parse : String → Option Value) (path l1 l2 l3 : String) (v1 v3 : Value),
        parse l1 = some v1 → parse l2 = none → parse l3 = some v3 →
        keepLine (base_name path) l1 = true →
        keepLine (base_name path) l3 = true →
        load_gzipped_json parse path [l1, l2, l3] = [v1, v3]) := by
  constructor
  · intro parse path lines h
    simp only [load_gzipped_json, parse_all_of_fail parse lines h,
      fallbackRows_eq_filterMap]
  · intro parse path l1 l2 l3 v1 v3 h1 h2 h3 k1 k3
    have hfail : parse_all parse [l1, l2, l3] = none :=
      parse_all_of_fail parse _ ⟨l2, by simp, h2⟩
    by_cases k2 : keepLine (base_name path) l2
    · simp [load_gzipped_json, hfail, fallbackRows, k1, k2, k3, h1, h2, h3]
    · simp [load_gzipped_json, hfail, fallbackRows, k1,
        eq_false_of_ne_true k2, k3, h1, h3]

/-- Witness for `load_malformed_lines_behavior`: a 3-line input, second line
invalid JSON, under a realistic path — 2 rows survive. -/
theorem load_malformed_lines_behavior_witness :
    load_gzipped_json demoParse "data/input_data/users.json.gz"
        ["\x7b\x7d", "bad", "\x7b\x22a\x22:1\x7d"] =
      [.obj [], .obj [("a", .num 1)]] :=
  load_malformed_lines_behavior.2 demoParse "data/input_data/users.json.gz"
    "\x7b\x7d" "bad" "\x7b\x22a\x22:1\x7d" (.obj []) (.obj [("a", .num 1)])
    rfl rfl rfl (by decide) (by decide)

/-- C4 counterexample: with path `"{.gz"` the base-name token is `"{"`, so
both parseable lines of the 3-line input (second line invalid JSON) are
discarded: the result has 0 rows, not 2, and does not contain the
successfully parseable objects. -/
theorem load_malformed_lines_cx :
    demoParse "\x7b\x7d" = some (.obj []) ∧
    demoParse "bad" = none ∧
    demoParse "\x7b\x22a\x22:1\x7d" = some (.obj [("a", .num 1)]) ∧
    load_gzipped_json demoParse "\x7b.gz"
        ["\x7b\x7d", "bad", "\x7b\x22a\x22:1\x7d"] = [] ∧
    (load_gzipped_json demoParse "\x7b.gz"
        ["\x7b\x7d", "bad", "\x7b\x22a\x22:1\x7d"]).length = 0 :=
  ⟨rfl, rfl, rfl, rfl, rfl⟩

/-- C9: the base-name token removes every occurrence of `".gz"` from the last
path segment (not only a trailing suffix); every non-blank line beginning
with the token is discarded by the fallback, even one that is itself valid
JSON, and such a record is then missing from the resulting Table. -/
theorem fallback_basename_token_spec :
    base_name "a/b.gz.c.gz" = "b.c" ∧
    base_name "data/input_data/users.json.gz" = "users.json" ∧
    (∀ (parse : String → Option Value) (path l : String) (ls : List String),
        lineNonBlank l = true → pyStartsWith (base_name path) l = true →
        fallbackRows parse (base_name path) (l :: ls) =
          fallbackRows parse (base_name path) ls) ∧
    (load_gzipped_json demoParse "\x7b.gz" ["bad", "\x7b\x7d"] = [] ∧
      demoParse "\x7b\x7d" = some (.obj [])) := by
  refine ⟨by decide, by decide, ?_, rfl, rfl⟩
  intro parse path l ls hnb hsw
  apply fallbackRows_skip
  simp [keepLine, hnb, hsw]

/-- Witness for `fallback_basename_token_spec`: a valid JSON line starting
with the base-name token is skipped by the fallback loop. -/
theorem fallback_basename_token_spec_witness :
    fallbackRows demoParse (base_name "\x7b.gz") ["\x7b\x7d", "bad"] =
      fallbackRows demoParse (base_name "\x7b.gz") ["bad"] :=
  fallback_basename_token_spec.2.2.1 demoParse "\x7b.gz" "\x7b\x7d" ["bad"]
    (by decide) (by decide)

/-! ### Value-conversion claims -/

/-- The ObjectIdRef shape of the spec: a one-key mapping `{"$oid": S}` with a
string payload. -/
def oidShaped : Value → Bool
  | .obj [(k, .str _)] => k = "$oid"
  | _ => false

/-- C1 counterexample: `{"$oid": 5}` is not of the shape `{"$oid": S}` (its
payload is not a string), yet `convert_oid` returns the payload `5`, not the
value unchanged — the code tests only membership of the key `"$oid"`.  The
result is not the input: the input is a mapping and the result is not
(`dictFields?` distinguishes them). -/
theorem convert_oid_nonstring_payload_cx :
    oidShaped (.obj [("$oid", .num 5)]) = false ∧
    convert_oid (.obj [("$oid", .num 5)]) = .num 5 ∧
    dictFields? (convert_oid (.obj [("$oid", .num 5)])) = none ∧
    dictFields? (.obj [("$oid", .num 5)]) = some [("$oid", .num 5)] :=
  ⟨rfl, rfl, rfl, rfl⟩

/-- C1 (amended): `convert_oid` on a mapping that contains the key `"$oid"`
returns the payload under `"$oid"` — in particular exactly `S` on
`{"$oid": S}` — and returns every mapping without `"$oid"`, and every
non-mapping, unchanged. -/
theorem convert_oid_spec :
    (∀ s : String, convert_oid (.obj [("$oid", .str s)]) = .str s) ∧
    (∀ (fs : Record) (v : Value),
        getField fs "$oid" = some v → convert_oid (.obj fs) = v) ∧
    (∀ fs : Record,
        getField fs "$oid" = none → convert_oid (.obj fs) = .obj fs) ∧
    (∀ v : Value, dictFields? v = none → convert_oid v = v) := by
  refine ⟨fun s => rfl, ?_, ?_, ?_⟩
  · intro fs v h
    simp [convert_oid, dictFields?, h]
  · intro fs h
    simp [convert_oid, dictFields?, h]
  · intro v h
    simp [convert_oid, h]

/-- Witness for `convert_oid_spec` at concrete inputs. -/
theorem convert_oid_spec_witness :
    convert_oid (.obj [("$oid", .str "601ac114be37ce2ead437550")]) =
        .str "601ac114be37ce2ead437550" ∧
    convert_oid (.str "already-plain") = .str "already-plain" :=
  ⟨convert_oid_spec.2.1 [("$oid", .str "601ac114be37ce2ead437550")]
      (.str "601ac114be37ce2ead437550") rfl,
    convert_oid_spec.2.2.2 (.str "already-plain") rfl⟩

/-- C2 counterexample: on `{"createdDate": {"$date": 1609687531000}}` the
normalization produces the timestamp at epoch seconds 1609687531 — but the
UTC instant 2021-01-03T12:25:31, which the claim identifies with that epoch
count, is epoch 1609676731, three hours earlier (1609687531 is
2021-01-03T15:25:31 UTC; `datetime.fromtimestamp` renders local time, and
the spec's wall-clock label does not match its own epoch count). -/
theorem convert_date_utc_label_cx :
    apply_conversions [[("createdDate", .obj [("$date", .num 1609687531000)])]] =
      .ok [[("createdDate", .datetime 1609687531)]] ∧
    utcEpochSeconds 2021 1 3 12 25 31 = 1609676731 ∧
    decide ((1609687531 : Int) = utcEpochSeconds 2021 1 3 12 25 31) = false := by
  refine ⟨?_, by decide, by decide⟩
  rw [show (1609687531 : Rat) = (1609687531000 : Rat) / 1000 by norm_num]
  rfl

/-- C2 (amended): normalizing `{"createdDate": {"$date": 1609687531000}}`
with the configured date columns yields the timestamp at epoch seconds
1609687531, i.e. 2021-01-03T15:25:31 UTC; in general the conversion divides
the encoded millisecond count by 1000 to obtain seconds since the epoch. -/
theorem convert_date_epoch_seconds :
    apply_conversions [[("createdDate", .obj [("$date", .num 1609687531000)])]] =
      .ok [[("createdDate", .datetime 1609687531)]] ∧
    (1609687531 : Int) = utcEpochSeconds 2021 1 3 15 25 31 ∧
    (∀ n : Rat, convert_date (.obj [("$date", .num n)]) =
      .ok (.datetime (n / 1000))) := by
  refine ⟨?_, by decide, fun n => rfl⟩
  rw [show (1609687531 : Rat) = (1609687531000 : Rat) / 1000 by norm_num]
  rfl

/-- C3 counterexample: a mapping containing `"$date"` with a non-numeric
payload is a partial match of the EncodedDate shape, and `convert_date`
raises `TypeError` on it (Python `'tomorrow' / 1000`) instead of returning. -/
theorem convert_date_raises_cx :
    getField [("$date", .str "tomorrow")] "$date" = some (.str "tomorrow") ∧
    convert_date (.obj [("$date", .str "tomorrow")]) = .error .typeError :=
  ⟨rfl, rfl⟩

/-- C3 (amended): partial matches fall through without raising in every
conversion except `convert_date` on a present `"$date"` key with a
non-numeric payload: a CrossRef-like mapping missing `"$ref"` (or `"$id"`)
passes through `convert_cpg` unchanged; a mapping without `"$date"`, and any
non-mapping, passes through `convert_date` unchanged; but a string payload
under `"$date"` raises `TypeError`. -/
theorem conversions_on_shapes :
    (∀ fs : Record,
        getField fs "$ref" = none → convert_cpg (.obj fs) = .obj fs) ∧
    (∀ fs : Record,
        getField fs "$id" = none → convert_cpg (.obj fs) = .obj fs) ∧
    (∀ fs : Record,
        getField fs "$date" = none → convert_date (.obj fs) = .ok (.obj fs)) ∧
    (∀ v : Value, dictFields? v = none → convert_date v = .ok v) ∧
    (∀ (fs : Record) (s : String),
        getField fs "$date" = some (.str s) →
        convert_date (.obj fs) = .error .typeError) := by
  refine ⟨?_, ?_, ?_, ?_, ?_⟩
  · intro fs h
    cases hid : getField fs "$id" with
    | none => simp [convert_cpg, dictFields?, hid]
    | some idv => simp [convert_cpg, dictFields?, hid, h]
  · intro fs h
    simp [convert_cpg, dictFields?, h]
  · intro fs h
    simp [convert_date, dictFields?, h]
  · intro v h
    simp [convert_date, h]
  · intro fs s h
    simp [convert_date, dictFields?, h]

/-- Witness for `conversions_on_shapes` at concrete partial matches. -/
theorem conversions_on_shapes_witness :
    convert_cpg (.obj [("$id", .obj [("$oid", .str "601a")])]) =
        .obj [("$id", .obj [("$oid", .str "601a")])] ∧
    convert_date (.obj [("$ref", .str "Cogs")]) =
        .ok (.obj [("$ref", .str "Cogs")]) ∧
    convert_date (.obj [("$date", .null)]) = .error .typeError := by
  refine ⟨conversions_on_shapes.1 [("$id", .obj [("$oid", .str "601a")])] rfl,
    conversions_on_shapes.2.2.1 [("$ref", .str "Cogs")] rfl, rfl⟩

/-- C6: `convert_cpg` collapses a CrossRef to the structured pair — the
spec's `ref_id`/`ref_collection` are realized as the keys
`cpg_id`/`cpg_ref` — taking the nested `"$oid"` string when `"$id"` holds an
ObjectIdRef and the bare value when it is a string; any value not containing
both `"$id"` and `"$ref"` passes through unchanged. -/
theorem convert_cpg_spec :
    (∀ S R : String,
        convert_cpg (.obj [("$id", .obj [("$oid", .str S)]), ("$ref", .str R)]) =
          .obj [("cpg_id", .str S), ("cpg_ref", .str R)]) ∧
    (∀ S R : String,
        convert_cpg (.obj [("$id", .str S), ("$ref", .str R)]) =
          .obj [("cpg_id", .str S), ("cpg_ref", .str R)]) ∧
    (∀ fs : Record,
        getField fs "$id" = none ∨ getField fs "$ref" = none →
        convert_cpg (.obj fs) = .obj fs) ∧
    (∀ v : Value, dictFields? v = none → convert_cpg v = v) := by
  refine ⟨fun S R => rfl, fun S R => rfl, ?_, ?_⟩
  · intro fs h
    rcases h with h | h
    · simp [convert_cpg, dictFields?, h]
    · cases hid : getField fs "$id" with
      | none => simp [convert_cpg, dictFields?, hid]
      | some idv => simp [convert_cpg, dictFields?, hid, h]
  · intro v h
    simp [convert_cpg, h]

/-- Witness for `convert_cpg_spec` at concrete CrossRef values. -/
theorem convert_cpg_spec_witness :
    convert_cpg (.obj [("$id", .obj [("$oid", .str "601ac114be37ce2ead437550")]),
        ("$ref", .str "Cogs")]) =
      .obj [("cpg_id", .str "601ac114be37ce2ead437550"),
        ("cpg_ref", .str "Cogs")] ∧
    convert_cpg (.obj [("name", .str "Brand")]) = .obj [("name", .str "Brand")] :=
  ⟨convert_cpg_spec.1 "601ac114be37ce2ead437550" "Cogs",
    convert_cpg_spec.2.2.1 [("name", .str "Brand")] (Or.inl rfl)⟩

/-! ### Extraction (C7) -/

theorem dropKey_cons (c : String) (kv : String × Value) (rest : Record) :
    dropKey c (kv :: rest) =
      if kv.1 = c then dropKey c rest else kv :: dropKey c rest := rfl

theorem getField_cons (k' : String) (v : Value) (rest : Record) (k : String) :
    getField ((k', v) :: rest) k = if k' = k then some v else getField rest k :=
  rfl

theorem getField_dropKey_self (c : String) (r : Record) :
    getField (dropKey c r) c = none := by
  induction r with
  | nil => rfl
  | cons kv rest ih =>
    obtain ⟨k', v⟩ := kv
    rw [dropKey_cons]
    by_cases h : k' = c
    · rw [if_pos h]
      exact ih
    · rw [if_neg h, getField_cons, if_neg h]
      exact ih

theorem getField_dropKey_ne (c k : String) (r : Record) (h : k ≠ c) :
    getField (dropKey c r) k = getField r k := by
  induction r with
  | nil => rfl
  | cons kv rest ih =>
    obtain ⟨k', v⟩ := kv
    rw [dropKey_cons]
    by_cases h1 : k' = c
    · have h2 : k' ≠ k := fun e => h (e.symm.trans h1)
      rw [if_pos h1, getField_cons, if_neg h2]
      exact ih
    · rw [if_neg h1, getField_cons, getField_cons]
      by_cases h2 : k' = k
      · rw [if_pos h2, if_pos h2]
      · rw [if_neg h2, if_neg h2]
        exact ih

/-- C7: extraction is order-preserving and total — both outputs have one
entry per source row; the extracted column holds, at each position, exactly
the source row's value under the designated column (`none` for pandas `NaN`
when the row lacks it); and the parent row at the same position no longer
contains that column while every other column of it is unchanged. -/
theorem extractColumn_spec (c : String) (t : Table) :
    (extractColumn c t).1.length = t.length ∧
    (extractColumn c t).2.length = t.length ∧
    ∀ (i : Nat) (r : Record), t[i]? = some r →
      (extractColumn c t).1[i]? = some (getField r c) ∧
      ∃ r', (extractColumn c t).2[i]? = some r' ∧ getField r' c = none ∧
        ∀ k, k ≠ c → getField r' k = getField r k := by
  refine ⟨by simp [extractColumn], by simp [extractColumn], ?_⟩
  intro i r hi
  constructor
  · simp [extractColumn, List.getElem?_map, hi]
  · exact ⟨dropKey c r, by simp [extractColumn, List.getElem?_map, hi],
      getField_dropKey_self c r, fun k hk => getField_dropKey_ne c k r hk⟩

/-- Witness for `extractColumn_spec` on a one-row receipts-like table. -/
theorem extractColumn_spec_witness :
    (extractColumn "rewardsReceiptItemList"
        [[("rewardsReceiptItemList", .arr [.obj []]), ("_id", .str "r1")]]).1[0]? =
      some (some (.arr [.obj []])) ∧
    ∃ r', (extractColumn "rewardsReceiptItemList"
        [[("rewardsReceiptItemList", .arr [.obj []]), ("_id", .str "r1")]]).2[0]? =
        some r' ∧
      getField r' "rewardsReceiptItemList" = none ∧
      getField r' "_id" = some (.str "r1") := by
  obtain ⟨h1, r', h2, h3, h4⟩ :=
    (extractColumn_spec "rewardsReceiptItemList"
      [[("rewardsReceiptItemList", .arr [.obj []]), ("_id", .str "r1")]]).2.2 0
      [("rewardsReceiptItemList", .arr [.obj []]), ("_id", .str "r1")] rfl
  exact ⟨h1.trans rfl, r', h2, h3, (h4 "_id" (by decide)).trans rfl⟩

/-! ### Frame property of `apply_conversions` (C10) -/

/-- The result row came from the source row by touching at most the columns
in `cols`: same keys in the same order, all other lookups unchanged. -/
def RowFrame (cols : List String) (r r' : Record) : Prop :=
  r'.map Prod.fst = r.map Prod.fst ∧
  ∀ k, k ∉ cols → getField r' k = getField r k

/-- Row count and order unchanged, each row within the `cols` frame. -/
def TableFrame (cols : List String) (t t' : Table) : Prop :=
  t'.length = t.length ∧
  ∀ (i : Nat) (r : Record), t[i]? = some r →
    ∃ r', t'[i]? = some r' ∧ RowFrame cols r r'

theorem rowFrame_refl (cols : List String) (r : Record) : RowFrame cols r r :=
  ⟨rfl, fun _ _ => rfl⟩

theorem tableFrame_refl (cols : List String) (t : Table) : TableFrame cols t t :=
  ⟨rfl, fun _ r h => ⟨r, h, rowFrame_refl cols r⟩⟩

theorem rowFrame_trans {cols : List String} {r r' r'' : Record}
    (h1 : RowFrame cols r r') (h2 : RowFrame cols r' r'') :
    RowFrame cols r r'' :=
  ⟨h2.1.trans h1.1, fun k hk => (h2.2 k hk).trans (h1.2 k hk)⟩

theorem tableFrame_trans {cols : List String} {t t' t'' : Table}
    (h1 : TableFrame cols t t') (h2 : TableFrame cols t' t'') :
    TableFrame cols t t'' := by
  refine ⟨h2.1.trans h1.1, fun i r h => ?_⟩
  obtain ⟨r', hr', hf⟩ := h1.2 i r h
  obtain ⟨r'', hr'', hf'⟩ := h2.2 i r' hr'
  exact ⟨r'', hr'', rowFrame_trans hf hf'⟩

theorem convertColumn_cons (f : Value → Value) (c : String)
    (kv : String × Value) (rest : Record) :
    convertColumn f c (kv :: rest) =
      (if kv.1 = c then (kv.1, f kv.2) else kv) :: convertColumn f c rest := rfl

theorem convertColumn_keys (f : Value → Value) (c : String) (r : Record) :
    (convertColumn f c r).map Prod.fst = r.map Prod.fst := by
  induction r with
  | nil => rfl
  | cons kv rest ih =>
    rw [convertColumn_cons]
    by_cases h : kv.1 = c
    · rw [if_pos h, List.map_cons, List.map_cons, ih]
    · rw [if_neg h, List.map_cons, List.map_cons, ih]

theorem getField_convertColumn_ne (f : Value → Value) (c k : String)
    (r : Record) (h : k ≠ c) :
    getField (convertColumn f c r) k = getField r k := by
  induction r with
  | nil => rfl
  | cons kv rest ih =>
    obtain ⟨k', v⟩ := kv
    rw [convertColumn_cons]
    by_cases h1 : k' = c
    · have h2 : k' ≠ k := fun e => h (e.symm.trans h1)
      rw [if_pos h1, getField_cons, if_neg h2, getField_cons, if_neg h2]
      exact ih
    · rw [if_neg h1, getField_cons, getField_cons]
      by_cases h2 : k' = k
      · rw [if_pos h2, if_pos h2]
      · rw [if_neg h2, if_neg h2]
        exact ih

theorem rowFrame_convertColumn (cols : List String) (f : Value → Value)
    (c : String) (r : Record) (h : c ∈ cols) :
    RowFrame cols r (convertColumn f c r) :=
  ⟨convertColumn_keys f c r,
    fun k hk => getField_convertColumn_ne f c k r (fun e => hk (e ▸ h))⟩

theorem tableFrame_applyCol (cols : List String) (f : Value → Value)
    (c : String) (t : Table) (h : c ∈ cols) :
    TableFrame cols t (applyCol f c t) := by
  unfold applyCol
  split
  · refine ⟨List.length_map _ _, fun i r hr => ?_⟩
    exact ⟨convertColumn f c r, by simp [List.getElem?_map, hr],
      rowFrame_convertColumn cols f c r h⟩
  · exact tableFrame_refl cols t

theorem convertColumnE_ok_frame (f : Value → Except PyError Value)
    (c : String) : ∀ (r r' : Record), convertColumnE f c r = .ok r' →
    r'.map Prod.fst = r.map Prod.fst ∧
    ∀ k, k ≠ c → getField r' k = getField r k := by
  intro r
  induction r with
  | nil =>
    intro r' h
    injection h with h
    subst h
    exact ⟨rfl, fun _ _ => rfl⟩
  | cons kv rest ih =>
    obtain ⟨k', w⟩ := kv
    intro r' h
    unfold convertColumnE at h
    by_cases h1 : k' = c
    · rw [if_pos h1] at h
      cases hf : f w with
      | error e => rw [hf] at h; cases h
      | ok v =>
        rw [hf] at h
        cases hr : convertColumnE f c rest with
        | error e => rw [hr] at h; cases h
        | ok rr =>
          rw [hr] at h
          injection h with h
          subst h
          obtain ⟨hk, hg⟩ := ih rr hr
          refine ⟨by rw [List.map_cons, List.map_cons, hk], fun k hkc => ?_⟩
          have h2 : k' ≠ k := fun e => hkc (e.symm.trans h1)
          rw [getField_cons, if_neg h2, getField_cons, if_neg h2]
          exact hg k hkc
    · rw [if_neg h1] at h
      cases hr : convertColumnE f c rest with
      | error e => rw [hr] at h; cases h
      | ok rr =>
        rw [hr] at h
        injection h with h
        subst h
        obtain ⟨hk, hg⟩ := ih rr hr
        refine ⟨by rw [List.map_cons, List.map_cons, hk], fun k hkc => ?_⟩
        rw [getField_cons, getField_cons]
        by_cases h2 : k' = k
        · rw [if_pos h2, if_pos h2]
        · rw [if_neg h2, if_neg h2]
          exact hg k hkc

theorem tableMapE_frame (g : Record → Except PyError Record)
    (cols : List String) (hg : ∀ r r', g r = .ok r' → RowFrame cols r r') :
    ∀ (t t' : Table), tableMapE g t = .ok t' → TableFrame cols t t' := by
  intro t
  induction t with
  | nil =>
    intro t' h
    injection h with h
    subst h
    exact tableFrame_refl cols []
  | cons r rest ih =>
    intro t' h
    unfold tableMapE at h
    cases hr : g r with
    | error e => rw [hr] at h; cases h
    | ok r' =>
      rw [hr] at h
      cases hrest : tableMapE g rest with
      | error e => rw [hrest] at h; cases h
      | ok t'' =>
        rw [hrest] at h
        injection h with h
        subst h
        obtain ⟨hl, hp⟩ := ih t'' hrest
        refine ⟨by simp [hl], fun i rr hi => ?_⟩
        cases i with
        | zero =>
          simp only [List.getElem?_cons_zero, Option.some_inj] at hi
          subst hi
          exact ⟨r', by simp, hg r r' hr⟩
        | succ n =>
          simp only [List.getElem?_cons_succ] at hi
          obtain ⟨r'', h'', hf⟩ := hp n rr hi
          exact ⟨r'', by simpa using h'', hf⟩

theorem tableFrame_applyColE (cols : List String)
    (f : Value → Except PyError Value) (c : String) (t t' : Table)
    (h : c ∈ cols) (hok : applyColE f c t = .ok t') :
    TableFrame cols t t' := by
  unfold applyColE at hok
  split at hok
  · refine tableMapE_frame _ cols (fun r r' hr => ?_) t t' hok
    obtain ⟨hk, hg⟩ := convertColumnE_ok_frame f c r r' hr
    exact ⟨hk, fun k hkc => hg k (fun e => hkc (e ▸ h))⟩
  · injection hok with h'
    subst h'
    exact tableFrame_refl cols t

theorem tableFrame_applyOidCols (cols : List String) :
    ∀ (cs : List String) (t : Table), (∀ c ∈ cs, c ∈ cols) →
    TableFrame cols t (applyOidCols cs t) := by
  intro cs
  induction cs with
  | nil => intro t _; exact tableFrame_refl cols t
  | cons c cs ih =>
    intro t h
    exact tableFrame_trans
      (tableFrame_applyCol cols convert_oid c t (h c (by simp)))
      (ih _ (fun c' hc' => h c' (by simp [hc'])))

theorem tableFrame_applyDateCols (cols : List String) :
    ∀ (cs : List String) (t t' : Table), applyDateCols cs t = .ok t' →
    (∀ c ∈ cs, c ∈ cols) → TableFrame cols t t' := by
  intro cs
  induction cs with
  | nil =>
    intro t t' h _
    injection h with h
    subst h
    exact tableFrame_refl cols t
  | cons c cs ih =>
    intro t t' h hc
    unfold applyDateCols at h
    cases hstep : applyColE convert_date c t with
    | error e => rw [hstep] at h; cases h
    | ok t1 =>
      rw [hstep] at h
      exact tableFrame_trans
        (tableFrame_applyColE cols convert_date c t t1 (hc c (by simp)) hstep)
        (ih t1 t' h (fun c' hc' => hc c' (by simp [hc'])))

/-- C10: when `apply_conversions` succeeds, it changes at most the values of
the three ObjectId columns, the seven date columns and `cpg`: the row count
and order are unchanged, every row keeps its keys in order (so the column
set is unchanged), and every lookup outside those eleven names is
unchanged. -/
theorem apply_conversions_frame (t t' : Table)
    (h : apply_conversions t = .ok t') :
    t'.length = t.length ∧
    ∀ (i : Nat) (r : Record), t[i]? = some r →
      ∃ r', t'[i]? = some r' ∧
        r'.map Prod.fst = r.map Prod.fst ∧
        ∀ k, k ∉ oid_columns → k ∉ date_columns → k ≠ "cpg" →
          getField r' k = getField r k := by
  unfold apply_conversions at h
  cases hd : applyDateCols date_columns (applyOidCols oid_columns t) with
  | error e => rw [hd] at h; cases h
  | ok t2 =>
    rw [hd] at h
    injection h with h
    subst h
    have f1 : TableFrame (oid_columns ++ date_columns ++ ["cpg"]) t
        (applyOidCols oid_columns t) :=
      tableFrame_applyOidCols _ oid_columns t (fun c hc => by simp [hc])
    have f2 : TableFrame (oid_columns ++ date_columns ++ ["cpg"])
        (applyOidCols oid_columns t) t2 :=
      tableFrame_applyDateCols _ date_columns _ t2 hd (fun c hc => by simp [hc])
    have f3 : TableFrame (oid_columns ++ date_columns ++ ["cpg"]) t2
        (applyCol convert_cpg "cpg" t2) :=
      tableFrame_applyCol _ convert_cpg "cpg" t2 (by simp)
    obtain ⟨hl, hp⟩ := tableFrame_trans (tableFrame_trans f1 f2) f3
    refine ⟨hl, fun i r hi => ?_⟩
    obtain ⟨r', h', hk, hg⟩ := hp i r hi
    exact ⟨r', h', hk, fun k h1 h2 h3 => hg k (by simp [h1, h2, h3])⟩

/-- Witness for `apply_conversions_frame`: a table whose single column is not
configured passes through with its value intact. -/
theorem apply_conversions_frame_witness :
    ∃ r', (([[("x", Value.num 7)]] : Table))[0]? = some r' ∧
      getField r' "x" = some (.num 7) := by
  obtain ⟨r', h', hk, hg⟩ :=
    (apply_conversions_frame [[("x", .num 7)]] [[("x", .num 7)]] rfl).2 0
      [("x", .num 7)] rfl
  exact ⟨r', h', (hg "x" (by decide) (by decide) (by decide)).trans rfl⟩
